import Mathlib

/-!
Verification development for the forecasting pipeline of the
losprimitos/forecast repository.

Shallow embedding conventions:
* JavaScript float64 values carried by the series are embedded as exact
  rationals (`ℚ`); the claims under study are structural / exact-arithmetic
  statements, so rounding is not modelled.
* The JavaScript `NaN` sentinel returned by the error metric is embedded as
  `none : Option ℚ`; a finite result `q` is `some q`.  In the sweep the
  running `bestMape` starts at `Infinity` and afterwards only holds adopted
  finite values, so it is embedded as `Option ℚ` with `none = Infinity`;
  the JavaScript comparison `mape < bestMape` (false whenever `mape` is
  `NaN`) is embedded by `fltB` below.
* Calendar dates are embedded as day numbers (`ℤ`, days since 1970-01-01,
  proleptic Gregorian), with the civil/day-number conversions written out;
  a JavaScript `Date` value is `Option ℤ` (`none` = Invalid Date).
-/

/-! ### ErrorMetric: the two computeMape implementations -/

/-- `computeMape` from `src/App.tsx` (lines 63-75): skips indices with
`actual[i] == 0`, accumulating `|((actual[i]-predicted[i])/actual[i])|` and a
count of accumulated terms; returns NaN (`none`) on length mismatch, empty
input, or zero accumulated terms, else `(sum / count) * 100`. -/
def computeMape (actual predicted : List ℚ) : Option ℚ :=
  if actual.length ≠ predicted.length ∨ actual.length = 0 then none
  else
    let s := (List.range actual.length).foldl
      (fun acc i =>
        if actual.getD i 0 ≠ 0 then
          (acc.1 + |(actual.getD i 0 - predicted.getD i 0) / actual.getD i 0|,
           acc.2 + 1)
        else acc)
      ((0 : ℚ), (0 : ℕ))
    if s.2 = 0 then none else some (s.1 / (s.2 : ℚ) * 100)

/-- `computeMape` from `src/models/timeSeriesModel.ts` (lines 9-23): skips
indices with `actual[i] == 0` in the sum, but divides by the FULL length
`actual.length`, and returns NaN (`none`) only on empty input or length
mismatch. -/
def computeMapeTS (actual predicted : List ℚ) : Option ℚ :=
  if actual.length = 0 ∨ actual.length ≠ predicted.length then none
  else
    let s := (List.range actual.length).foldl
      (fun acc i =>
        if actual.getD i 0 = 0 then acc
        else acc + |(actual.getD i 0 - predicted.getD i 0) / actual.getD i 0|)
      (0 : ℚ)
    some (s / (actual.length : ℚ) * 100)

/-- Spec-side expression: the sum over indices with `actual[i] ≠ 0` of
`|actual[i]-predicted[i]| / |actual[i]|`. -/
def validSum (actual predicted : List ℚ) : ℚ :=
  ∑ i ∈ Finset.range actual.length,
    if actual.getD i 0 ≠ 0 then
      |actual.getD i 0 - predicted.getD i 0| / |actual.getD i 0|
    else 0

/-- Spec-side expression: the number of indices with `actual[i] ≠ 0`. -/
def validCount (actual : List ℚ) : ℕ :=
  ∑ i ∈ Finset.range actual.length, if actual.getD i 0 ≠ 0 then 1 else 0

/-! ### SequenceBuilder -/

/-- `createSequences` from `src/App.tsx` (lines 51-60) (the copy in
`src/models/timeSeriesModel.ts` lines 165-177 is identical): for
`i = 0 .. values.length - windowSize - 1` push `values.slice(i, i+windowSize)`
into `X` and `values[i + windowSize]` into `Y`. -/
def createSequences (values : List ℚ) (windowSize : ℕ) :
    List (List ℚ) × List ℚ :=
  ((List.range (values.length - windowSize)).map
      (fun i => ((values.drop i).take windowSize)),
   (List.range (values.length - windowSize)).map
      (fun i => values.getD (i + windowSize) 0))

/-! ### DateUtility

Dates are day numbers (days since 1970-01-01, proleptic Gregorian); the
civil/day conversions follow the standard era-based algorithms.  The UI runs
in one time zone throughout, so local-time and UTC readings of one `Date`
value coincide in the model. -/

/-- Day number of the civil date `(y, m, d)`, `1 ≤ m ≤ 12`. -/
def daysFromCivil (y m d : ℤ) : ℤ :=
  let y2 := y - (if m ≤ 2 then 1 else 0)
  let era := y2.fdiv 400
  let yoe := y2 - era * 400
  let doy := (153 * (m + (if 2 < m then -3 else 9)) + 2).fdiv 5 + d - 1
  let doe := yoe * 365 + yoe.fdiv 4 - yoe.fdiv 100 + doy
  era * 146097 + doe - 719468

/-- Civil date `(y, m, d)` of a day number. -/
def civilFromDays (z : ℤ) : ℤ × ℤ × ℤ :=
  let z2 := z + 719468
  let era := z2.fdiv 146097
  let doe := z2 - era * 146097
  let yoe := (doe - doe.fdiv 1460 + doe.fdiv 36524 - doe.fdiv 146096).fdiv 365
  let y := yoe + era * 400
  let doy := doe - (365 * yoe + yoe.fdiv 4 - yoe.fdiv 100)
  let mp := (5 * doy + 2).fdiv 153
  let d := doy - (153 * mp + 2).fdiv 5 + 1
  let m := mp + (if mp < 10 then 3 else -9)
  (y + (if m ≤ 2 then 1 else 0), m, d)

/-- JavaScript `new Date(year, monthIndex, day)` semantics: years 0..99 map
to 1900..1999, and an out-of-range `monthIndex` or `day` is NORMALIZED
(rolled over into adjacent months/years), never rejected. -/
def mkDateNum (y m d : ℤ) : ℤ :=
  let y1 := if 0 ≤ y ∧ y ≤ 99 then y + 1900 else y
  let y2 := y1 + m.fdiv 12
  let m2 := m.emod 12
  daysFromCivil y2 (m2 + 1) 1 + (d - 1)

/-- `new Date(y, m, d)` where any argument may be NaN (`none`), which gives
an Invalid Date (`none`). -/
def jsMkDate (y m d : Option ℤ) : Option ℤ :=
  match y, m, d with
  | some y, some m, some d => some (mkDateNum y m d)
  | _, _, _ => none

/-- JavaScript `parseInt(s, 10)`: skip leading blanks, optional sign, then
the longest digit prefix; NaN (`none`) when there is no digit. -/
def jsParseInt (s : String) : Option ℤ :=
  let cs := s.toList.dropWhile (fun c => c = ' ')
  let sg : ℤ × List Char :=
    match cs with
    | '-' :: t => (-1, t)
    | '+' :: t => (1, t)
    | _ => (1, cs)
  let ds := sg.2.takeWhile Char.isDigit
  if ds.isEmpty then none
  else some (sg.1 *
    (ds.foldl (fun a c => a * 10 + ((c.toNat : ℤ) - ('0'.toNat : ℤ))) 0))

/-- `dateStr.split(/[-\x2f]/)`: split on `-` or `/`, keeping empty pieces,
written structurally so it reduces inside the kernel. -/
def splitSeps : List Char → List Char → List String
  | [], acc => [String.mk acc.reverse]
  | c :: rest, acc =>
    if c = '-' ∨ c = '/' then String.mk acc.reverse :: splitSeps rest []
    else splitSeps rest (c :: acc)

/-- `parseDateFromFormat` from `src/App.tsx` (lines 106-133): split on `-`
or `/`, require at least 3 parts, map parts to (year, month, day) per the
format, and build `new Date(year, month - 1, day)`. -/
def parseDateFromFormat (dateStr dateFormat : String) : Option ℤ :=
  let parts := splitSeps dateStr.toList []
  if parts.length < 3 then none
  else
    let p0 := jsParseInt (parts.getD 0 "")
    let p1 := jsParseInt (parts.getD 1 "")
    let p2 := jsParseInt (parts.getD 2 "")
    if dateFormat = "Y/M/D" then jsMkDate p0 (p1.map (fun x => x - 1)) p2
    else if dateFormat = "D/M/Y" then jsMkDate p2 (p1.map (fun x => x - 1)) p0
    else if dateFormat = "M/D/Y" then jsMkDate p2 (p0.map (fun x => x - 1)) p1
    else none

/-- Decimal digits of a Nat (fuel-structural so it reduces by `decide`). -/
def natDigitChar (n : ℕ) : Char :=
  if n = 0 then '0' else if n = 1 then '1' else if n = 2 then '2'
  else if n = 3 then '3' else if n = 4 then '4' else if n = 5 then '5'
  else if n = 6 then '6' else if n = 7 then '7' else if n = 8 then '8'
  else '9'

def natDigitsAux : ℕ → ℕ → List Char
  | 0, _ => []
  | fuel + 1, n =>
    if n < 10 then [natDigitChar n]
    else natDigitsAux fuel (n / 10) ++ [natDigitChar (n % 10)]

/-- JavaScript `String(n)` for a Nat. -/
def natToStr (n : ℕ) : String := String.mk (natDigitsAux (n + 1) n)

/-- JavaScript `String(z)` for an integer. -/
def intToStr (z : ℤ) : String :=
  if z < 0 then "-" ++ natToStr z.natAbs else natToStr z.natAbs

/-- JavaScript `String(z).padStart(2, "0")`. -/
def pad2 (z : ℤ) : String :=
  if (intToStr z).length < 2 then "0" ++ intToStr z else intToStr z

/-- `toISODate` from `src/App.tsx` (lines 78-83): year, zero-padded month
and day joined by `-`. -/
def toISODate (day : ℤ) : String :=
  let c := civilFromDays day
  intToStr c.1 ++ "-" ++ pad2 c.2.1 ++ "-" ++ pad2 c.2.2

/-- The host `new Date(string)` parse as the pipeline exercises it: a
canonical `YYYY-MM-DD` string with in-range month/day parses to its day
number; anything else is an Invalid Date (`none`). -/
def jsDateParse (s : String) : Option ℤ :=
  let cs := s.toList
  let dig := fun (l : List ℕ) =>
    l.foldl (fun a i => a * 10 + ((cs.getD i '0').toNat - '0'.toNat)) 0
  if cs.length = 10 ∧ cs.getD 4 ' ' = '-' ∧ cs.getD 7 ' ' = '-' ∧
      (([0, 1, 2, 3, 5, 6, 8, 9].map (fun i => cs.getD i ' ')).all
        Char.isDigit) then
    let y := dig [0, 1, 2, 3]
    let m := dig [5, 6]
    let d := dig [8, 9]
    if 1 ≤ m ∧ m ≤ 12 ∧ 1 ≤ d ∧ d ≤ 31 then
      some (daysFromCivil y m d)
    else none
  else none

/-- `generateFutureDates` from `src/App.tsx` (lines 86-103): if the anchor
date does not parse, emit the synthetic labels `Futuro +1`, `Futuro +2`, …;
otherwise emit the ISO dates 1..periods days after the anchor. -/
def generateFutureDates (lastDateStr : String) (periods : ℕ) : List String :=
  match jsDateParse lastDateStr with
  | none => (List.range periods).map (fun i => "Futuro +" ++ natToStr (i + 1))
  | some d => (List.range periods).map (fun i => toISODate (d + (i + 1 : ℕ)))

/-! ### Prediction loops

Training is stochastic and the learned network is opaque; a trained model is
embedded as its induced one-step predictor `f : List ℚ → ℚ` (the claims
under study are about how predictors are USED, not about learned weights). -/

/-- One autoregressive step of the future loop (lines 374-387 of
`src/App.tsx`, lines 104-117 of `src/models/timeSeriesModel.ts`): predict,
append the prediction, drop the oldest value. -/
def nextWindow (f : List ℚ → ℚ) (w : List ℚ) : List ℚ := w.drop 1 ++ [f w]

/-- The input window before the k-th autoregressive prediction. -/
def windowAt (f : List ℚ → ℚ) (w : List ℚ) (k : ℕ) : List ℚ :=
  (nextWindow f)^[k] w

/-- The autoregressive future loop itself: n predictions from seed window w. -/
def autoReg (f : List ℚ → ℚ) (w : List ℚ) : ℕ → List ℚ
  | 0 => []
  | n + 1 => f w :: autoReg f (nextWindow f w) n

/-- The non-autoregressive test loop (lines 356-367 and 443-453 of
`src/App.tsx`): for `i = windowSize .. testValues.length - 1` predict from
`testValues.slice(i - windowSize, i)`; reindexed by `k = i - windowSize`. -/
def testPreds (f : List ℚ → ℚ) (testValues : List ℚ) (w : ℕ) : List ℚ :=
  (List.range (testValues.length - w)).map
    (fun k => f ((testValues.drop k).take w))

/-- The test error `trainAndEvaluate` returns (lines 443-455 of
`src/App.tsx`): MAPE of the test predictions against `testValues.slice(w)`. -/
def trainTestMape (f : List ℚ → ℚ) (testValues : List ℚ) (w : ℕ) : Option ℚ :=
  computeMape (testValues.drop w) (testPreds f testValues w)

/-! ### ModelSearch sweep (lines 315-348 of `src/App.tsx`)

`bestMape` starts at `Infinity` (`none`) and only ever becomes an adopted
finite MAPE, so `Option ℚ` with `none = Infinity` captures every value it
takes; a candidate MAPE of `none` is NaN.  `best` is the index of the
current best model (`none` = the initial `null`); `live` lists the model
indices allocated and not yet disposed. -/

/-- The JavaScript comparison `mape < bestMape`: false when `mape` is NaN,
true when `mape` is finite and `bestMape` still `Infinity`, else `<` on ℚ. -/
def fltB : Option ℚ → Option ℚ → Bool
  | none, _ => false
  | some _, none => true
  | some q, some b => decide (q < b)

/-- The strictly-less-than relation in the words of the spec: the candidate
error is finite and less than the incumbent best error (with no incumbent
counting as infinitely bad). -/
def specLt : Option ℚ → Option ℚ → Prop
  | none, _ => False
  | some _, none => True
  | some q, some b => q < b

structure SweepSt where
  bestMape : Option ℚ
  best : Option ℕ
  live : List ℕ
deriving Repr, DecidableEq

def sweepInit : SweepSt := ⟨none, none, []⟩

/-- One iteration of the sweep: the candidate model `i` (error `m`) is
allocated; on `mape < bestMape` the previous best (if any) is disposed and
`i` adopted, otherwise `i` is disposed immediately. -/
def sweepStep (s : SweepSt) (i : ℕ) (m : Option ℚ) : SweepSt :=
  let liveIn := i :: s.live
  if fltB m s.bestMape then
    { bestMape := m
      best := some i
      live := (match s.best with
               | some b => liveIn.erase b
               | none => liveIn) }
  else { s with live := liveIn.erase i }

def sweepAux (i : ℕ) (s : SweepSt) : List (Option ℚ) → SweepSt
  | [] => s
  | m :: rest => sweepAux (i + 1) (sweepStep s i m) rest

/-- The whole sweep over a list of candidate test errors. -/
def sweep (ms : List (Option ℚ)) : SweepSt := sweepAux 0 sweepInit ms

/-! ### TimeSeriesModel (src/models/timeSeriesModel.ts) -/

/-- `TimeSeriesModel.predict` (lines 91-120): with no trained model the
public method returns the empty list; otherwise it runs the autoregressive
loop with the fixed `windowSize = 3` from the last 3 values. -/
def tsPredict (model : Option (List ℚ → ℚ)) (data : List (String × ℚ))
    (futurePeriods : ℕ) : List ℚ :=
  match model with
  | none => []
  | some f =>
    let valuesArray := data.map Prod.snd
    autoReg f (valuesArray.drop (valuesArray.length - 3)) futurePeriods

/-! ### ForecastPipeline: handleTrain (lines 297-394 of `src/App.tsx`)

The UI state fields the pipeline reads or writes; `testMape : Option
(Option ℚ)` is `none` for the React `null` and `some none` for a displayed
NaN.  `fam w u` is the predictor of the model trained for window size `w`
and `u` LSTM units in this run (training itself is opaque, see above).
`Math.floor(length * 0.8)` agrees with `length * 4 / 5` in ℕ for every
realistic length because the double `0.8` is slightly above 4/5 and the
product stays within a half-ulp of the exact value. -/

structure UIState where
  error : Option String
  isTraining : Bool
  testPredictions : List ℚ
  testMape : Option (Option ℚ)
  futurePredictions : List ℚ
  futureDates : List String
deriving Repr, DecidableEq

/-- The fixed configuration grid, in iteration order (outer loop over window
sizes [3, 5], inner over LSTM units [32, 64]). -/
def combos : List (ℕ × ℕ) := [(3, 32), (3, 64), (5, 32), (5, 64)]

def testValuesOf (data : List (String × ℚ)) : List ℚ :=
  (data.drop (data.length * 4 / 5)).map Prod.snd

/-- The candidate test errors of one run, in sweep order. -/
def sweepMapes (fam : ℕ → ℕ → List ℚ → ℚ) (data : List (String × ℚ)) :
    List (Option ℚ) :=
  combos.map (fun c => trainTestMape (fam c.1 c.2) (testValuesOf data) c.1)

def handleTrain (fam : ℕ → ℕ → List ℚ → ℚ) (data : List (String × ℚ))
    (futurePeriods : ℕ) (st : UIState) : UIState :=
  if data.length < 20 then
    { st with error := some "Se necesitan al menos 20 datos para entrenar." }
  else
    let st1 : UIState :=
      { st with
        error := none
        isTraining := true
        testPredictions := []
        testMape := none
        futurePredictions := []
        futureDates := [] }
    let testValues := testValuesOf data
    match (sweep (sweepMapes fam data)).best with
    | none =>
      { st1 with
        error := some "No se pudo entrenar ningún modelo."
        isTraining := false }
    | some k =>
      let c := combos.getD k (3, 32)
      let f := fam c.1 c.2
      let w := c.1
      let preds := testPreds f testValues w
      let fullValues := data.map Prod.snd
      let futures := autoReg f (fullValues.drop (fullValues.length - w))
        futurePeriods
      { st1 with
        testMape := some (computeMape (testValues.drop w) preds),
        testPredictions := preds,
        futurePredictions := futures,
        futureDates := generateFutureDates (data.getLastD ("", 0)).1
          futurePeriods,
        isTraining := false }

/-! ### Helper lemmas -/

lemma mapeFold_eq (a p : List ℚ) (n : ℕ) :
    (List.range n).foldl
      (fun acc i =>
        if a.getD i 0 ≠ 0 then
          (acc.1 + |(a.getD i 0 - p.getD i 0) / a.getD i 0|, acc.2 + 1)
        else acc)
      ((0 : ℚ), (0 : ℕ)) =
    (∑ i ∈ Finset.range n,
        if a.getD i 0 ≠ 0 then |a.getD i 0 - p.getD i 0| / |a.getD i 0| else 0,
     ∑ i ∈ Finset.range n, if a.getD i 0 ≠ 0 then 1 else 0) := by
  induction n with
  | zero => simp
  | succ n ih =>
    rw [List.range_succ, List.foldl_append, ih]
    by_cases h : a[n]?.getD 0 = 0
    · simp [h, Finset.sum_range_succ, List.getD]
    · simp [h, Finset.sum_range_succ, abs_div, List.getD]

lemma mapeFoldTS_eq (a p : List ℚ) (n : ℕ) :
    (List.range n).foldl
      (fun acc i =>
        if a.getD i 0 = 0 then acc
        else acc + |(a.getD i 0 - p.getD i 0) / a.getD i 0|)
      (0 : ℚ) =
    ∑ i ∈ Finset.range n,
      if a.getD i 0 ≠ 0 then |a.getD i 0 - p.getD i 0| / |a.getD i 0| else 0 := by
  induction n with
  | zero => simp
  | succ n ih =>
    rw [List.range_succ, List.foldl_append, ih]
    by_cases h : a[n]?.getD 0 = 0
    · simp [h, Finset.sum_range_succ, List.getD]
    · simp [h, Finset.sum_range_succ, abs_div, List.getD]


/-! ### Claim theorems -/

/-- C1 (amended): the pipeline's percentage error (`computeMape` of
`src/App.tsx`) is NaN on length mismatch, empty input or when no index has
`actual[i] ≠ 0`, and otherwise `100 * Σ_{actual[i] ≠ 0} |actual[i]-predicted[i]|/|actual[i]|`
divided by the number of such indices, giving 20 on `[0,10]` vs `[5,12]`;
the `computeMapeTS` variant of `src/models/timeSeriesModel.ts` instead
divides the same sum by the TOTAL length (zero-actual indices count in the
denominator) and is NaN only on length mismatch or empty input, giving 10
on the same example. -/
theorem computeMape_characterization :
    (∀ a p : List ℚ,
      computeMape a p =
        if a.length ≠ p.length ∨ a.length = 0 then none
        else if validCount a = 0 then none
        else some (100 * validSum a p / validCount a))
    ∧ (∀ a p : List ℚ,
      computeMapeTS a p =
        if a.length = 0 ∨ a.length ≠ p.length then none
        else some (100 * validSum a p / a.length))
    ∧ computeMape [0, 10] [5, 12] = some 20
    ∧ computeMapeTS [0, 10] [5, 12] = some 10 := by
  refine ⟨?_, ?_, ?_, ?_⟩
  · intro a p
    simp only [computeMape, validSum, validCount, mapeFold_eq]
    split_ifs
    · rfl
    · rfl
    · congr 1
      rw [mul_comm, mul_div_assoc]
  · intro a p
    simp only [computeMapeTS, validSum, mapeFoldTS_eq]
    split_ifs
    · rfl
    · congr 1
      rw [mul_comm, mul_div_assoc]
  · norm_num [computeMape, List.range_succ, abs_of_nonneg]
  · norm_num [computeMapeTS, List.range_succ, abs_of_nonneg]

/-- C1 counterexample: at the claim's own example the `timeSeriesModel.ts`
percentage error gives 10, not the claimed 20 (the skipped zero-actual index
still counts in its denominator). -/
theorem computeMapeTS_example_ne :
    computeMapeTS [0, 10] [5, 12] = some 10 ∧ (10 : ℚ) ≠ 20 := by
  constructor
  · norm_num [computeMapeTS, List.range_succ, abs_of_nonneg]
  · norm_num

/-- C3 (confirmed): `createSequences` on a length-L series with window size
W yields exactly L - W windows, the i-th being `values[i .. i+W)` of length
W, with labels `values[W:]`; for L ≤ W it yields empty windows and labels. -/
theorem createSequences_spec :
    ∀ (values : List ℚ) (w : ℕ),
      (createSequences values w).1.length = values.length - w
      ∧ (createSequences values w).2 = values.drop w
      ∧ (∀ i, i < values.length - w →
          (createSequences values w).1.getD i [] = (values.drop i).take w
          ∧ ((createSequences values w).1.getD i []).length = w)
      ∧ (values.length ≤ w → createSequences values w = ([], [])) := by
  intro values w
  refine ⟨by simp [createSequences], ?_, ?_, ?_⟩
  · apply List.ext_getElem
    · simp [createSequences]
    · intro i h1 h2
      simp only [createSequences, List.getElem_map, List.getElem_range]
      have hb : i + w < values.length := by
        simp [createSequences] at h1
        omega
      rw [List.getD_eq_getElem _ _ hb, List.getElem_drop]
      congr 1
      omega
  · intro i hi
    have hx : (createSequences values w).1.getD i [] = (values.drop i).take w := by
      rw [List.getD_eq_getElem _ _ (by simpa [createSequences] using hi)]
      simp [createSequences]
    refine ⟨hx, ?_⟩
    rw [hx]
    simp only [List.length_take, List.length_drop]
    omega
  · intro h
    simp [createSequences, Nat.sub_eq_zero_of_le h]

/-- C10 (confirmed): calling `TimeSeriesModel.predict` before any training
has completed (internal model still null) returns the empty list for every
input series and horizon. -/
theorem tsPredict_untrained :
    ∀ (data : List (String × ℚ)) (n : ℕ), tsPredict none data n = [] := by
  intro data n
  rfl

/-! ### Sweep lemmas -/

lemma fltB_iff_specLt (m b : Option ℚ) : fltB m b = true ↔ specLt m b := by
  cases m <;> cases b <;> simp [fltB, specLt]

lemma fltB_self (m : Option ℚ) : fltB m m = false := by
  cases m <;> simp [fltB]

lemma fltB_trans_false {m b m' : Option ℚ} (h1 : fltB m b = false)
    (h2 : fltB m' b = true) : fltB m m' = false := by
  cases m <;> cases b <;> cases m' <;> simp_all [fltB] <;> linarith

lemma sweepStep_best (s : SweepSt) (i : ℕ) (m : Option ℚ) :
    (sweepStep s i m).best = if fltB m s.bestMape then some i else s.best := by
  by_cases h : fltB m s.bestMape <;> simp [sweepStep, h]

lemma sweepStep_mape (s : SweepSt) (i : ℕ) (m : Option ℚ) :
    (sweepStep s i m).bestMape =
      if fltB m s.bestMape then m else s.bestMape := by
  by_cases h : fltB m s.bestMape <;> simp [sweepStep, h]

lemma sweepAux_best_cases :
    ∀ (rest : List (Option ℚ)) (i : ℕ) (s : SweepSt),
      (sweepAux i s rest).best = s.best ∨
      ∃ k, (sweepAux i s rest).best = some k ∧ i ≤ k := by
  intro rest
  induction rest with
  | nil => intro i s; exact Or.inl rfl
  | cons m rest ih =>
    intro i s
    rcases ih (i + 1) (sweepStep s i m) with h | ⟨k, hk, hik⟩
    · by_cases hf : fltB m s.bestMape
      · right
        refine ⟨i, ?_, le_refl i⟩
        simp only [sweepAux] at h ⊢
        rw [h, sweepStep_best, if_pos hf]
      · left
        simp only [sweepAux] at h ⊢
        rw [h, sweepStep_best, if_neg hf]
    · right
      exact ⟨k, by simpa [sweepAux] using hk, by omega⟩

lemma sweepAux_mape_mono :
    ∀ (rest : List (Option ℚ)) (i : ℕ) (s : SweepSt) (v : Option ℚ),
      fltB v s.bestMape = false →
      fltB v (sweepAux i s rest).bestMape = false := by
  intro rest
  induction rest with
  | nil => intro i s v h; exact h
  | cons m rest ih =>
    intro i s v h
    simp only [sweepAux]
    apply ih
    rw [sweepStep_mape]
    by_cases hf : fltB m s.bestMape
    · rw [if_pos hf]
      exact fltB_trans_false h hf
    · rw [if_neg hf]
      exact h

lemma sweepAux_best_lt :
    ∀ (rest : List (Option ℚ)) (i : ℕ) (s : SweepSt),
      (∀ k, s.best = some k → k < i) →
      ∀ k, (sweepAux i s rest).best = some k → k < i + rest.length := by
  intro rest
  induction rest with
  | nil =>
    intro i s h k hk
    have := h k hk
    simpa using this
  | cons m rest ih =>
    intro i s h k hk
    simp only [sweepAux] at hk
    have hstep : ∀ k', (sweepStep s i m).best = some k' → k' < i + 1 := by
      intro k' hk'
      rw [sweepStep_best] at hk'
      by_cases hf : fltB m s.bestMape
      · rw [if_pos hf] at hk'
        injection hk' with hk'
        omega
      · rw [if_neg hf] at hk'
        have := h k' hk'
        omega
    have := ih (i + 1) (sweepStep s i m) hstep k hk
    simp only [List.length_cons]
    omega

lemma sweepAux_not_adopted :
    ∀ (rest : List (Option ℚ)) (i : ℕ) (s : SweepSt) (j : ℕ) (v : Option ℚ),
      rest.get? j = some v → fltB v s.bestMape = false →
      (∀ k, s.best = some k → k < i) →
      (sweepAux i s rest).best ≠ some (i + j) := by
  intro rest
  induction rest with
  | nil => intro i s j v hj; simp at hj
  | cons m rest ih =>
    intro i s j v hj hflt hlt
    cases j with
    | zero =>
      have hmv : m = v := by simpa using hj
      subst hmv
      simp only [sweepAux]
      have hstep : (sweepStep s i m).best = s.best := by
        rw [sweepStep_best, if_neg (by simp [hflt])]
      rcases sweepAux_best_cases rest (i + 1) (sweepStep s i m) with h | ⟨k, hk, hik⟩
      · rw [h, hstep]
        intro hc
        have := hlt _ hc
        omega
      · rw [hk]
        intro hc
        injection hc with hc
        omega
    | succ j =>
      simp only [sweepAux]
      have h1 : rest.get? j = some v := by simpa using hj
      have h2 : fltB v (sweepStep s i m).bestMape = false := by
        rw [sweepStep_mape]
        by_cases hf : fltB m s.bestMape
        · rw [if_pos hf]
          exact fltB_trans_false hflt hf
        · rw [if_neg hf]
          exact hflt
      have h3 : ∀ k, (sweepStep s i m).best = some k → k < i + 1 := by
        intro k hk
        rw [sweepStep_best] at hk
        by_cases hf : fltB m s.bestMape
        · rw [if_pos hf] at hk
          injection hk with hk
          omega
        · rw [if_neg hf] at hk
          have := hlt k hk
          omega
      have := ih (i + 1) (sweepStep s i m) j v h1 h2 h3
      rw [show i + (j + 1) = (i + 1) + j by omega]
      exact this

lemma sweepAux_append :
    ∀ (xs ys : List (Option ℚ)) (i : ℕ) (s : SweepSt),
      sweepAux i s (xs ++ ys) = sweepAux (i + xs.length) (sweepAux i s xs) ys := by
  intro xs
  induction xs with
  | nil => intro ys i s; simp [sweepAux]
  | cons m xs ih =>
    intro ys i s
    rw [List.cons_append]
    simp only [sweepAux]
    rw [ih]
    congr 1
    simp only [List.length_cons]
    omega

lemma sweep_first_wins (ms : List (Option ℚ)) (i j : ℕ) (v : Option ℚ)
    (hij : i < j) (hvi : ms.get? i = some v) (hvj : ms.get? j = some v) :
    (sweep ms).best ≠ some j := by
  have hjlen : j < ms.length := List.get?_eq_some.mp hvj |>.1
  have hilen : i + 1 ≤ ms.length := by omega
  have hlen_take : (ms.take (i + 1)).length = i + 1 := by
    simp [List.length_take]
    omega
  have htake : ms.take (i + 1) = ms.take i ++ [v] := by
    have hvi2 : ms[i]? = some v := by
      rw [← List.get?_eq_getElem?]
      exact hvi
    rw [List.take_succ, hvi2]
    rfl
  have hmape : fltB v (sweepAux 0 sweepInit (ms.take (i + 1))).bestMape = false := by
    rw [htake, sweepAux_append]
    simp only [sweepAux]
    rw [sweepStep_mape]
    by_cases hf : fltB v (sweepAux 0 sweepInit (ms.take i)).bestMape
    · rw [if_pos hf]
      exact fltB_self v
    · rw [if_neg hf]
      simpa using hf
  have hbound : ∀ k, (sweepAux 0 sweepInit (ms.take (i + 1))).best = some k →
      k < i + 1 := by
    intro k hk
    have := sweepAux_best_lt (ms.take (i + 1)) 0 sweepInit
      (by intro k' hk'; simp [sweepInit] at hk') k hk
    omega
  have hdrop : (ms.drop (i + 1)).get? (j - (i + 1)) = some v := by
    rw [List.get?_drop, show i + 1 + (j - (i + 1)) = j by omega]
    exact hvj
  have hmain := sweepAux_not_adopted (ms.drop (i + 1)) (i + 1)
    (sweepAux 0 sweepInit (ms.take (i + 1))) (j - (i + 1)) v hdrop hmape hbound
  have hsplit : sweep ms =
      sweepAux (i + 1) (sweepAux 0 sweepInit (ms.take (i + 1))) (ms.drop (i + 1)) := by
    conv_lhs => rw [sweep, show ms = ms.take (i + 1) ++ ms.drop (i + 1) from
      (List.take_append_drop _ _).symm]
    rw [sweepAux_append, hlen_take, Nat.zero_add]
  rw [hsplit, show j = (i + 1) + (j - (i + 1)) by omega]
  exact hmain

lemma sweepAux_live_inv :
    ∀ (rest : List (Option ℚ)) (i : ℕ) (s : SweepSt),
      s.live = s.best.toList →
      (sweepAux i s rest).live = (sweepAux i s rest).best.toList := by
  intro rest
  induction rest with
  | nil => intro i s h; exact h
  | cons m rest ih =>
    intro i s h
    simp only [sweepAux]
    apply ih
    by_cases hf : fltB m s.bestMape
    · simp only [sweepStep, if_pos hf]
      cases hb : s.best with
      | none => simp [h, hb]
      | some b =>
        simp only [h, hb, Option.toList]
        by_cases hib : i = b
        · subst hib
          simp
        · simp [List.erase_cons, hib]
    · simp [sweepStep, if_neg hf, h]

/-- C4 (confirmed): in an iteration of the configuration sweep the candidate
replaces the current best exactly when its test error is strictly less than
the best error so far (NaN never replaces, anything finite beats the initial
Infinity, an equal error does not replace); consequently over a whole sweep,
when an earlier and a later configuration produce the same test error, the
later one is never the retained best — first-seen wins. -/
theorem sweep_strict_less_first_wins
    (s : SweepSt) (i : ℕ) (m : Option ℚ)
    (ms : List (Option ℚ)) (v : Option ℚ) (i2 j : ℕ)
    (hne : s.best ≠ some i) (hij : i2 < j)
    (hvi : ms.get? i2 = some v) (hvj : ms.get? j = some v) :
    ((sweepStep s i m).best = some i ↔ specLt m s.bestMape)
    ∧ (sweep ms).best ≠ some j := by
  constructor
  · rw [sweepStep_best]
    by_cases hf : fltB m s.bestMape
    · simp only [if_pos hf]
      simp [(fltB_iff_specLt m s.bestMape).mp hf]
    · have hns : ¬ specLt m s.bestMape := fun hs => hf ((fltB_iff_specLt _ _).mpr hs)
      simp only [if_neg hf]
      simp [hne, hns]
  · exact sweep_first_wins ms i2 j v hij hvi hvj

/-- C4 witness: a concrete sweep state and a concrete run with a tied error
(configurations 0 and 2 both score 2): the candidate with error 3 beats the
incumbent 5, and index 2 is not the retained best. -/
theorem sweep_strict_less_first_wins_witness :
    (((sweepStep ⟨some 5, some 0, [0]⟩ 1 (some 3)).best = some 1) ↔
      specLt (some 3) (some 5))
    ∧ (sweep [some 2, some 7, some 2]).best ≠ some 2 :=
  sweep_strict_less_first_wins ⟨some 5, some 0, [0]⟩ 1 (some 3)
    [some 2, some 7, some 2] (some 2) 0 2
    (by decide) (by decide) (by decide) (by decide)

/-- C8 (confirmed): after every sweep the set of live (undisposed) models is
exactly the current best (at most one model), every model whose index is not
the best has been released, and during an iteration — right after the new
candidate is allocated and before the comparison resolves — at most two
models are live. -/
theorem sweep_model_lifetime :
    ∀ (ms : List (Option ℚ)) (k : ℕ),
      (sweep ms).live = (sweep ms).best.toList
      ∧ (sweep ms).live.length ≤ 1
      ∧ (k :: (sweep (ms.take k)).live).length ≤ 2
      ∧ (∀ i, (sweep ms).best ≠ some i → i ∉ (sweep ms).live) := by
  intro ms k
  have hinv : ∀ xs : List (Option ℚ), (sweep xs).live = (sweep xs).best.toList :=
    fun xs => sweepAux_live_inv xs 0 sweepInit rfl
  have hlen : ∀ xs : List (Option ℚ), (sweep xs).live.length ≤ 1 := by
    intro xs
    rw [hinv]
    cases (sweep xs).best <;> simp [Option.toList]
  refine ⟨hinv ms, hlen ms, ?_, ?_⟩
  · have := hlen (ms.take k)
    simp only [List.length_cons]
    omega
  · intro i hne hmem
    rw [hinv ms] at hmem
    cases hb : (sweep ms).best with
    | none => rw [hb] at hmem; simp [Option.toList] at hmem
    | some b =>
      rw [hb] at hmem
      simp [Option.toList] at hmem
      exact hne (by rw [hb, hmem])

/-! ### Prediction-loop lemmas -/

lemma autoReg_length (f : List ℚ → ℚ) :
    ∀ (n : ℕ) (w : List ℚ), (autoReg f w n).length = n := by
  intro n
  induction n with
  | zero => intro w; rfl
  | succ n ih => intro w; simp [autoReg, ih]

lemma autoReg_getD (f : List ℚ → ℚ) :
    ∀ (n k : ℕ) (w : List ℚ), k < n →
      (autoReg f w n).getD k 0 = f (windowAt f w k) := by
  intro n
  induction n with
  | zero => intro k w hk; omega
  | succ n ih =>
    intro k w hk
    cases k with
    | zero => simp [autoReg, windowAt]
    | succ k =>
      simp only [autoReg, List.getD_cons_succ]
      rw [ih k (nextWindow f w) (by omega)]
      rw [windowAt, windowAt, Function.iterate_succ_apply]

lemma windowAt_succ (f : List ℚ → ℚ) (w : List ℚ) (k : ℕ) :
    windowAt f w (k + 1) =
      (windowAt f w k).drop 1 ++ [f (windowAt f w k)] := by
  rw [windowAt, windowAt, Function.iterate_succ_apply']
  rfl

lemma windowAt_length (f : List ℚ → ℚ) (w : List ℚ) (hw : 1 ≤ w.length) :
    ∀ k, (windowAt f w k).length = w.length := by
  intro k
  induction k with
  | zero => rfl
  | succ k ih =>
    rw [windowAt_succ]
    simp only [List.length_append, List.length_drop, List.length_singleton]
    omega

/-- C5 (confirmed): the future loop seeds its window with the last
windowSize values of the whole series, produces exactly futurePeriods
predictions, and is autoregressive: the window before step k+1 is the window
before step k with the oldest value dropped and the step-k prediction
appended (so it contains that prediction), and the k-th output equals the
predictor applied to the k-th window. -/
theorem future_autoregressive
    (f : List ℚ → ℚ) (fullValues : List ℚ) (w n : ℕ)
    (hw : 1 ≤ w) (hlen : w ≤ fullValues.length) :
    (autoReg f (fullValues.drop (fullValues.length - w)) n).length = n
    ∧ (fullValues.drop (fullValues.length - w)).length = w
    ∧ (∀ k, k < n →
        (autoReg f (fullValues.drop (fullValues.length - w)) n).getD k 0 =
          f (windowAt f (fullValues.drop (fullValues.length - w)) k))
    ∧ (∀ k, windowAt f (fullValues.drop (fullValues.length - w)) (k + 1) =
        (windowAt f (fullValues.drop (fullValues.length - w)) k).drop 1 ++
          [f (windowAt f (fullValues.drop (fullValues.length - w)) k)])
    ∧ (∀ k, f (windowAt f (fullValues.drop (fullValues.length - w)) k) ∈
        windowAt f (fullValues.drop (fullValues.length - w)) (k + 1))
    ∧ (∀ k, (windowAt f (fullValues.drop (fullValues.length - w)) k).length = w) := by
  have hseedlen : (fullValues.drop (fullValues.length - w)).length = w := by
    simp only [List.length_drop]
    omega
  refine ⟨autoReg_length f n _, hseedlen,
    fun k hk => autoReg_getD f n k _ hk, fun k => windowAt_succ f _ k, ?_, ?_⟩
  · intro k
    rw [windowAt_succ]
    exact List.mem_append_right _ (List.mem_singleton.mpr rfl)
  · intro k
    rw [windowAt_length f _ (by omega) k, hseedlen]

/-- C5 witness: a concrete predictor, series, window size 3 and horizon 2. -/
theorem future_autoregressive_witness :
    (autoReg (fun _ => (0 : ℚ)) (([0, 0, 0, 0] : List ℚ).drop 1) 2).length = 2
    ∧ (([0, 0, 0, 0] : List ℚ).drop 1).length = 3
    ∧ (∀ k, k < 2 →
        (autoReg (fun _ => (0 : ℚ)) (([0, 0, 0, 0] : List ℚ).drop 1) 2).getD k 0 =
          (fun _ => (0 : ℚ)) (windowAt (fun _ => (0 : ℚ)) (([0, 0, 0, 0] : List ℚ).drop 1) k))
    ∧ (∀ k, windowAt (fun _ => (0 : ℚ)) (([0, 0, 0, 0] : List ℚ).drop 1) (k + 1) =
        (windowAt (fun _ => (0 : ℚ)) (([0, 0, 0, 0] : List ℚ).drop 1) k).drop 1 ++
          [(fun _ => (0 : ℚ)) (windowAt (fun _ => (0 : ℚ)) (([0, 0, 0, 0] : List ℚ).drop 1) k)])
    ∧ (∀ k, (fun _ => (0 : ℚ)) (windowAt (fun _ => (0 : ℚ)) (([0, 0, 0, 0] : List ℚ).drop 1) k) ∈
        windowAt (fun _ => (0 : ℚ)) (([0, 0, 0, 0] : List ℚ).drop 1) (k + 1))
    ∧ (∀ k, (windowAt (fun _ => (0 : ℚ)) (([0, 0, 0, 0] : List ℚ).drop 1) k).length = 3) :=
  future_autoregressive (fun _ => (0 : ℚ)) [0, 0, 0, 0] 3 2 (by decide) (by decide)

/-! ### Fixtures for concrete runs -/

/-- A 20-point series of constant value 1 (a run whose sweep succeeds). -/
def oneSeries : List (String × ℚ) := List.replicate 20 ("2024-01-01", 1)

/-- A 20-point series of constant value 0: every configuration's MAPE is
NaN, so the sweep adopts nothing. -/
def zeroSeries : List (String × ℚ) := List.replicate 20 ("2024-01-01", 0)

/-- A UI state holding displayed results of an earlier successful run. -/
def priorResults : UIState := ⟨none, false, [7], some (some 1), [8], ["2024-01-02"]⟩

def initialState : UIState := ⟨none, false, [], none, [], []⟩

/-- C6 (confirmed): the test loop produces one prediction per index i from
windowSize to len(testValues)-1, each computed from the windowSize
ground-truth test values preceding i (a slice of testValues itself, never of
the prediction list), the prediction at slot i - windowSize is compared
against testValues[i] by the percentage-error metric, and the pipeline
publishes exactly this list and error for the winning configuration. -/
theorem test_predictions_ground_truth
    (f : List ℚ → ℚ) (testValues : List ℚ) (w : ℕ)
    (fam : ℕ → ℕ → List ℚ → ℚ) (data : List (String × ℚ))
    (st : UIState) (n k : ℕ)
    (hw : w < testValues.length)
    (h20 : ¬ data.length < 20)
    (hk : (sweep (sweepMapes fam data)).best = some k) :
    (testPreds f testValues w).length = testValues.length - w
    ∧ (∀ i, w ≤ i → i < testValues.length →
        (testPreds f testValues w).getD (i - w) 0 =
          f ((testValues.drop (i - w)).take w)
        ∧ ((testValues.drop (i - w)).take w).length = w
        ∧ (testValues.drop w).getD (i - w) 0 = testValues.getD i 0)
    ∧ trainTestMape f testValues w =
        computeMape (testValues.drop w) (testPreds f testValues w)
    ∧ (handleTrain fam data n st).testPredictions =
        testPreds (fam (combos.getD k (3, 32)).1 (combos.getD k (3, 32)).2)
          (testValuesOf data) (combos.getD k (3, 32)).1
    ∧ (handleTrain fam data n st).testMape =
        some (computeMape
          ((testValuesOf data).drop (combos.getD k (3, 32)).1)
          (testPreds (fam (combos.getD k (3, 32)).1 (combos.getD k (3, 32)).2)
            (testValuesOf data) (combos.getD k (3, 32)).1)) := by
  refine ⟨by simp [testPreds], ?_, rfl, ?_, ?_⟩
  · intro i hwi hi
    have hx : (testPreds f testValues w).getD (i - w) 0 =
        f ((testValues.drop (i - w)).take w) := by
      rw [List.getD_eq_getElem _ _ (by simp [testPreds]; omega)]
      simp [testPreds]
    refine ⟨hx, ?_, ?_⟩
    · simp only [List.length_take, List.length_drop]
      omega
    · rw [List.getD_eq_getElem _ _ (by simp; omega),
        List.getD_eq_getElem _ _ (by omega : i < testValues.length),
        List.getElem_drop]
      congr 1
      omega
  · simp only [handleTrain, if_neg h20, hk]
  · simp only [handleTrain, if_neg h20, hk]

/-- C6 witness: a concrete constant-1 series of 20 points with the
constant-0 predictor family; the sweep adopts configuration 0. -/
theorem test_predictions_ground_truth_witness :
    (testPreds (fun _ => (0 : ℚ)) (testValuesOf oneSeries) 3).length =
      (testValuesOf oneSeries).length - 3
    ∧ (∀ i, 3 ≤ i → i < (testValuesOf oneSeries).length →
        (testPreds (fun _ => (0 : ℚ)) (testValuesOf oneSeries) 3).getD (i - 3) 0 =
          (fun _ => (0 : ℚ)) (((testValuesOf oneSeries).drop (i - 3)).take 3)
        ∧ (((testValuesOf oneSeries).drop (i - 3)).take 3).length = 3
        ∧ ((testValuesOf oneSeries).drop 3).getD (i - 3) 0 =
            (testValuesOf oneSeries).getD i 0)
    ∧ trainTestMape (fun _ => (0 : ℚ)) (testValuesOf oneSeries) 3 =
        computeMape ((testValuesOf oneSeries).drop 3)
          (testPreds (fun _ => (0 : ℚ)) (testValuesOf oneSeries) 3)
    ∧ (handleTrain (fun _ _ _ => (0 : ℚ)) oneSeries 5 initialState).testPredictions =
        testPreds ((fun _ _ _ => (0 : ℚ)) 3 32) (testValuesOf oneSeries) 3
    ∧ (handleTrain (fun _ _ _ => (0 : ℚ)) oneSeries 5 initialState).testMape =
        some (computeMape ((testValuesOf oneSeries).drop 3)
          (testPreds ((fun _ _ _ => (0 : ℚ)) 3 32) (testValuesOf oneSeries) 3)) :=
  test_predictions_ground_truth (fun _ => (0 : ℚ)) (testValuesOf oneSeries) 3
    (fun _ _ _ => (0 : ℚ)) oneSeries initialState 5 0
    (by decide) (by decide)
    (by norm_num [sweep, sweepAux, sweepStep, sweepMapes, trainTestMape,
      computeMape, testPreds, testValuesOf, combos, fltB, oneSeries,
      List.range_succ, sweepInit, List.replicate])

/-- C7 counterexample: on an unparsable anchor the code emits the Spanish
labels `Futuro +N`, not the `Future +N` the claim states. -/
theorem generateFutureDates_spanish_labels :
    generateFutureDates "not-a-date" 2 = ["Futuro +1", "Futuro +2"]
    ∧ generateFutureDates "not-a-date" 2 ≠ ["Future +1", "Future +2"] := by
  refine ⟨by decide, by decide⟩

/-- C7 (amended): for every count n and every anchor string the host cannot
parse as a date, the fallback produces exactly n synthetic ordinal labels
`Futuro +1` … `Futuro +n` (the source UI is Spanish) instead of failing. -/
theorem generateFutureDates_fallback
    (s : String) (n : ℕ) (h : jsDateParse s = none) :
    (generateFutureDates s n).length = n
    ∧ (∀ i, i < n → (generateFutureDates s n).getD i "" =
        "Futuro +" ++ natToStr (i + 1)) := by
  unfold generateFutureDates
  rw [h]
  constructor
  · simp
  · intro i hi
    rw [List.getD_eq_getElem _ _ (by simpa using hi)]
    simp

/-- C7 witness: the anchor "not-a-date" with n = 2. -/
theorem generateFutureDates_fallback_witness :
    (generateFutureDates "not-a-date" 2).length = 2
    ∧ (∀ i, i < 2 → (generateFutureDates "not-a-date" 2).getD i "" =
        "Futuro +" ++ natToStr (i + 1)) :=
  generateFutureDates_fallback "not-a-date" 2 (by decide)

/-- C2 (code_bug evidence): `parseDateFromFormat` fed "13/13/2024" under the
day/month/year format builds `new Date(2024, 12, 13)`, which JavaScript
NORMALIZES to the valid date 2025-01-13 (day number 20101) instead of
failing: month 13 silently wraps into January of the next year. -/
theorem parseDateFromFormat_wraps_month13 :
    parseDateFromFormat "13/13/2024" "D/M/Y" = some 20101
    ∧ (parseDateFromFormat "13/13/2024" "D/M/Y").isSome = true
    ∧ civilFromDays 20101 = (2025, 1, 13)
    ∧ toISODate 20101 = "2025-01-13" := by
  refine ⟨by decide, by decide, by decide, by decide⟩

/-- C9 counterexample: a run that fails by search exhaustion (a 20-point
all-zero series makes every configuration's test error NaN) does NOT leave
the previously displayed results unchanged: the prior test predictions [7]
have been cleared to [] by the time the failure is reported. -/
theorem handleTrain_failure_clears_results :
    (handleTrain (fun _ _ _ => 0) zeroSeries 5 priorResults).error =
      some "No se pudo entrenar ningún modelo."
    ∧ (handleTrain (fun _ _ _ => 0) zeroSeries 5 priorResults).testPredictions = []
    ∧ priorResults.testPredictions = [7]
    ∧ (handleTrain (fun _ _ _ => 0) zeroSeries 5 priorResults).testPredictions ≠
        priorResults.testPredictions := by
  refine ⟨by decide, by decide, rfl, by decide⟩

/-- C9 (amended): a failure at the insufficient-data precheck aborts before
anything is cleared, so the prior results stay displayed and only the error
message changes; but a failure AFTER training starts (search exhaustion)
reports its message with all result fields already cleared — the prior
results are not preserved there, because `handleTrain` resets them before
the sweep.  In both cases `handleTrain` is a single state transformation
with no retry. -/
theorem handleTrain_failure_modes
    (fam : ℕ → ℕ → List ℚ → ℚ) (st : UIState)
    (dshort dlong : List (String × ℚ)) (n : ℕ)
    (h1 : dshort.length < 20) (h2 : ¬ dlong.length < 20)
    (h3 : (sweep (sweepMapes fam dlong)).best = none) :
    handleTrain fam dshort n st =
      { st with error := some "Se necesitan al menos 20 datos para entrenar." }
    ∧ handleTrain fam dlong n st =
      { st with
        error := some "No se pudo entrenar ningún modelo."
        isTraining := false
        testPredictions := []
        testMape := none
        futurePredictions := []
        futureDates := [] } := by
  constructor
  · simp [handleTrain, if_pos h1]
  · simp [handleTrain, if_neg h2, h3]

/-- C9 witness: a one-point series for the precheck failure and the 20-point
all-zero series for the search-exhaustion failure, both started from a state
holding an earlier run's results. -/
theorem handleTrain_failure_modes_witness :
    handleTrain (fun _ _ _ => 0) [("x", 1)] 5 priorResults =
      { priorResults with
        error := some "Se necesitan al menos 20 datos para entrenar." }
    ∧ handleTrain (fun _ _ _ => 0) zeroSeries 5 priorResults =
      { priorResults with
        error := some "No se pudo entrenar ningún modelo."
        isTraining := false
        testPredictions := []
        testMape := none
        futurePredictions := []
        futureDates := [] } :=
  handleTrain_failure_modes (fun _ _ _ => 0) priorResults [("x", 1)] zeroSeries 5
    (by decide) (by decide) (by decide)
